import Mathlib

/-!
# Inventory Management System API: the product repository

A shallow embedding of `models/Product.js`, `utils/errors.js` and the request
handlers of `controllers/productController.js` / `middleware/validateProduct.js`
that sit in front of it, followed by the properties of the stock-adjustment
subsystem.

The relational store behind `config/db` is not part of the sources.  It is
modelled as a list of rows in insertion order plus the `AUTO_INCREMENT`
counter; every SQL statement issued by the sources becomes one function on
that state.  Quantities are JavaScript integers and are embedded as `Int`.
-/

namespace Inventory

/-! ## Data model -/

/-- A row of the `products` table, which is also the wire shape of a product. -/
structure Product where
  id : Int
  name : String
  description : String
  stock_quantity : Int
  low_stock_threshold : Int
deriving DecidableEq, Repr

/-- The exceptions that the sources throw: the built-in `Error` and the three
classes of `utils/errors.js`.  Each carries its message. -/
inductive JsError where
  | Error (message : String)
  | InsufficientStockError (message : String)
  | ValidationError (message : String)
  | NotFoundError (message : String)
deriving DecidableEq, Repr

namespace JsError

/-- The `message` property of an exception. -/
def message : JsError → String
  | Error m => m
  | InsufficientStockError m => m
  | ValidationError m => m
  | NotFoundError m => m

/-- The `statusCode` property set by the constructors of `utils/errors.js`;
a plain `Error` has none. -/
def statusCode : JsError → Option Nat
  | Error _ => none
  | InsufficientStockError _ => some 400
  | ValidationError _ => some 400
  | NotFoundError _ => some 404

end JsError

/-! ## The store -/

/-- Modelled from the spec: the `products` table reached through `config/db`,
which is missing from the sources.  `rows` holds the live rows in insertion
order and `autoIncrement` is the id the store assigns to the next insert. -/
structure Db where
  rows : List Product
  autoIncrement : Int
deriving DecidableEq, Repr

namespace Db

/-- Modelled from the spec: `INSERT INTO products (name, description,
stock_quantity, low_stock_threshold) VALUES (?, ?, ?, ?)`.  The store assigns
the id; the second component is `result.insertId`. -/
def execInsert (db : Db) (name description : String)
    (stock_quantity low_stock_threshold : Int) : Db × Int :=
  ({ rows := db.rows ++ [{ id := db.autoIncrement, name := name, description := description,
                           stock_quantity := stock_quantity,
                           low_stock_threshold := low_stock_threshold }],
     autoIncrement := db.autoIncrement + 1 },
   db.autoIncrement)

/-- Modelled from the spec: `SELECT ... FROM products WHERE id = ?`. -/
def selectById (db : Db) (id : Int) : List Product :=
  db.rows.filter (fun r => r.id == id)

/-- Modelled from the spec: `UPDATE products SET ... WHERE ...`.  Every row
matching `cond` is replaced by its image under `set`; the second component is
`result.affectedRows`, the number of rows matched. -/
def execUpdate (db : Db) (cond : Product → Bool) (set : Product → Product) : Db × Nat :=
  ({ db with rows := db.rows.map (fun r => if cond r then set r else r) },
   (db.rows.filter cond).length)

/-- Modelled from the spec: `DELETE FROM products WHERE id = ?`, with
`result.affectedRows` as second component. -/
def execDelete (db : Db) (id : Int) : Db × Nat :=
  ({ db with rows := db.rows.filter (fun r => !(r.id == id)) },
   (db.rows.filter (fun r => r.id == id)).length)

/-- Modelled from the spec: `SELECT * FROM products WHERE stock_quantity <
low_stock_threshold ORDER BY stock_quantity ASC`. -/
def selectLowStock (db : Db) : List Product :=
  (db.rows.filter (fun r => decide (r.stock_quantity < r.low_stock_threshold))).insertionSort
    (fun a b => a.stock_quantity ≤ b.stock_quantity)

/-- The primary key of the table: ids are pairwise distinct, positive and
below the `AUTO_INCREMENT` counter. -/
def PrimaryKey (db : Db) : Prop :=
  (db.rows.map (fun r => r.id)).Nodup ∧ 0 < db.autoIncrement ∧
    ∀ r ∈ db.rows, 0 < r.id ∧ r.id < db.autoIncrement

end Db

/-- Modelled from the spec: a pooled connection obtained by
`db.getConnection()`.  `committed` is the table as every other session sees
it, `working` is the view of the transaction opened on this connection. -/
structure Connection where
  committed : Db
  working : Db
deriving DecidableEq, Repr

namespace Connection

/-- Modelled from the spec: `db.getConnection()`. -/
def get (db : Db) : Connection := { committed := db, working := db }

/-- Modelled from the spec: `connection.beginTransaction()`. -/
def beginTransaction (c : Connection) : Connection := { c with working := c.committed }

/-- Modelled from the spec: `connection.commit()`. -/
def commit (c : Connection) : Connection := { c with committed := c.working }

/-- Modelled from the spec: `connection.rollback()`. -/
def rollback (c : Connection) : Connection := { c with working := c.committed }

/-- Modelled from the spec: `connection.release()`; the table that remains. -/
def release (c : Connection) : Db := c.committed

end Connection

/-! ## `models/Product.js` -/

/-- The number of halvings that bring `m` below 2: the binary exponent of `m`. -/
def binaryExponent : Nat → Nat → Nat
  | 0, _ => 0
  | fuel + 1, m => if m < 2 then 0 else binaryExponent fuel (m / 2) + 1

/-- The search of `shortestDecimal`: the multiple of the largest power of ten,
from `10 ^ j` down, that lies in the rounding interval of `m`, the nearer one
when two do, the one with the even digit string on a tie.  The interval is
`[m - down4 / 4, m + up4 / 4]`, without its ends unless `closed`. -/
def shortestDecimalSearch (m down4 up4 : Nat) (closed : Bool) : Nat → Nat
  | 0 => m
  | j + 1 =>
    let p := 10 ^ (j + 1)
    let below := m / p * p
    let above := below + p
    let inside := fun v : Nat =>
      if closed then decide (4 * m ≤ 4 * v + down4) && decide (4 * v ≤ 4 * m + up4)
      else decide (4 * m < 4 * v + down4) && decide (4 * v < 4 * m + up4)
    if inside below && inside above then
      if m - below < above - m then below
      else if above - m < m - below then above
      else if (m / p) % 2 = 0 then below else above
    else if inside below then below
    else if inside above then above
    else shortestDecimalSearch m down4 up4 closed j

/-- The integer whose decimal digits JavaScript prints for the number `m`, a
non-negative integer held in a double: the one with the fewest significant
digits among those that read back as `m`.  Up to `2 ^ 53` that is `m`
itself; above, neighbouring doubles are `ulp` apart (half of it below a power
of two) and ties go to the even mantissa. -/
def shortestDecimal (m : Nat) : Nat :=
  if m < 2 ^ 53 then m
  else
    let ulp := 2 ^ (binaryExponent m m - 52)
    let mantissa := m / ulp
    let down4 := if mantissa = 2 ^ 52 then ulp else 2 * ulp
    shortestDecimalSearch m down4 (2 * ulp) (mantissa % 2 == 0)
      ((Nat.toDigits 10 m).length - 1)

/-- The string a template literal substitutes for the number `x`, an integer
held in a double (`Number::toString`): plain digits up to 21 of them,
exponent form beyond. -/
def jsNumberToString (x : Int) : String :=
  let digits := Nat.toDigits 10 (shortestDecimal x.natAbs)
  let sign := if x < 0 then "-" else ""
  if digits.length ≤ 21 then sign ++ String.mk digits
  else
    match digits.rdropWhile (fun c => c == '0') with
    | [] => sign ++ String.mk digits
    | [d] => sign ++ String.mk [d] ++ "e+" ++ toString (digits.length - 1)
    | d :: rest => sign ++ String.mk (d :: '.' :: rest) ++ "e+" ++ toString (digits.length - 1)

/-- The message built by the template literal of `decreaseStock`. -/
def insufficientStockMessage (currentStock amount : Int) : String :=
  "Insufficient stock. Available: " ++ jsNumberToString currentStock ++
    ", Requested: " ++ jsNumberToString amount

/-- One entry of the `fields` / `values` arrays built by `Product.update`. -/
inductive Assignment where
  | name (value : String)
  | description (value : String)
deriving DecidableEq, Repr

/-- The effect on a row of one `column = ?` item of the `SET` clause. -/
def Assignment.apply (r : Product) : Assignment → Product
  | .name v => { r with name := v }
  | .description v => { r with description := v }

namespace Product

/-- `Product.create`: both quantities default when omitted. -/
def create (db : Db) (name description : String)
    (stock_quantity low_stock_threshold : Option Int) : Db × Except JsError Product :=
  let stock_quantity := stock_quantity.getD 0
  let low_stock_threshold := low_stock_threshold.getD 10
  if stock_quantity < 0 then
    (db, .error (.Error "Initial stock quantity cannot be negative"))
  else if low_stock_threshold < 0 then
    (db, .error (.Error "Low stock threshold cannot be negative"))
  else
    let (db', insertId) := db.execInsert name description stock_quantity low_stock_threshold
    (db', .ok { id := insertId, name := name, description := description,
                stock_quantity := stock_quantity, low_stock_threshold := low_stock_threshold })

/-- `Product.findById`: `none` is JavaScript's `null`. -/
def findById (db : Db) (id : Int) : Option Product :=
  match db.selectById id with
  | [] => none
  | product :: _ => some product

/-- `Product.update`: `none` stands for an `undefined` field. -/
def update (db : Db) (id : Int) (name description : Option String) :
    Db × Except JsError (Option Product) :=
  let fields : List Assignment := []
  let fields := match name with
    | some v => fields ++ [Assignment.name v]
    | none => fields
  let fields := match description with
    | some v => fields ++ [Assignment.description v]
    | none => fields
  if fields.length = 0 then
    (db, .error (.Error "No valid fields to update"))
  else
    let (db', affectedRows) :=
      db.execUpdate (fun r => r.id == id) (fun r => fields.foldl Assignment.apply r)
    if affectedRows = 0 then (db', .ok none)
    else (db', .ok (findById db' id))

/-- `Product.delete`. -/
def delete (db : Db) (id : Int) : Db × Bool :=
  let (db', affectedRows) := db.execDelete id
  (db', decide (affectedRows > 0))

/-- `Product.increaseStock`. -/
def increaseStock (db : Db) (id amount : Int) : Db × Except JsError (Option Product) :=
  if amount ≤ 0 then
    (db, .error (.Error "Amount must be a positive integer"))
  else
    let (db', affectedRows) :=
      db.execUpdate (fun r => r.id == id && decide (r.stock_quantity ≥ 0))
        (fun r => { r with stock_quantity := r.stock_quantity + amount })
    if affectedRows = 0 then (db', .error (.Error "Product not found"))
    else (db', .ok (findById db' id))

/-- `Product.decreaseStock`: the check and the write run in one transaction
on a dedicated connection; every `throw` inside the `try` reaches the `catch`,
which rolls back before rethrowing. -/
def decreaseStock (db : Db) (id amount : Int) : Db × Except JsError (Option Product) :=
  if amount ≤ 0 then
    (db, .error (.Error "Amount must be a positive integer"))
  else
    let connection := (Connection.get db).beginTransaction
    match connection.working.selectById id with
    | [] => (connection.rollback.release, .error (.Error "Product not found"))
    | row :: _ =>
      let currentStock := row.stock_quantity
      if currentStock < amount then
        (connection.rollback.release,
         .error (.InsufficientStockError (insufficientStockMessage currentStock amount)))
      else
        let connection := { connection with
          working := (connection.working.execUpdate (fun r => r.id == id)
            (fun r => { r with stock_quantity := r.stock_quantity - amount })).1 }
        let db' := connection.commit.release
        (db', .ok (findById db' id))

/-- `Product.getLowStockProducts`. -/
def getLowStockProducts (db : Db) : List Product :=
  db.selectLowStock

end Product

/-- A call to one of the mutating operations of the repository, with its
arguments. -/
inductive Call where
  | create (name description : String) (stock_quantity low_stock_threshold : Option Int)
  | update (id : Int) (name description : Option String)
  | delete (id : Int)
  | increaseStock (id amount : Int)
  | decreaseStock (id amount : Int)
deriving DecidableEq, Repr

/-- The table left behind by a call, whether it returned or threw. -/
def Call.run (db : Db) : Call → Db
  | .create name description stock_quantity low_stock_threshold =>
    (Product.create db name description stock_quantity low_stock_threshold).1
  | .update id name description => (Product.update db id name description).1
  | .delete id => (Product.delete db id).1
  | .increaseStock id amount => (Product.increaseStock db id amount).1
  | .decreaseStock id amount => (Product.decreaseStock db id amount).1

/-- The statement run by `decreaseStock` once the check has passed. -/
def decrementRows (db : Db) (id amount : Int) : Db :=
  (db.execUpdate (fun r => r.id == id)
    (fun r => { r with stock_quantity := r.stock_quantity - amount })).1

/-- The `fields` array of `Product.update` as a function of its arguments. -/
def setClause (name description : Option String) : List Assignment :=
  (match name with
    | some v => [Assignment.name v]
    | none => []) ++
  (match description with
    | some v => [Assignment.description v]
    | none => [])

/-! ## Concurrent `decreaseStock` calls

Each call is a sequence of steps, one per `await`; the synchronous code
between two awaits runs with the step that precedes it.  A scheduler picks
which call moves next. -/

deriving instance DecidableEq for Except

/-- The program points of a `decreaseStock` call. -/
inductive Pc where
  /-- Called; next `await db.getConnection()`. -/
  | start
  /-- Next `await connection.beginTransaction()`. -/
  | connected
  /-- Next the locking `SELECT ... FOR UPDATE`. -/
  | begun
  /-- The row is locked and the check has passed; next the `UPDATE`. -/
  | checked
  /-- The `UPDATE` has run inside the transaction; next `commit()`. -/
  | updated
  /-- Committed; next `this.findById(id)`. -/
  | committed
  /-- In the `catch` block; next `connection.rollback()`. -/
  | failing (err : JsError)
  /-- Returned or thrown. -/
  | done (result : Except JsError (Option Product))
deriving DecidableEq, Repr

/-- One in-flight call `decreaseStock(id, amount)`. -/
structure Session where
  id : Int
  amount : Int
  pc : Pc
deriving DecidableEq, Repr

/-- Modelled from the spec: the committed table, the row locks held (row id
and index of the holding call) and the calls in flight.  A lock taken by a
locking read is held until the transaction of its holder commits or rolls
back, and blocks the locking read of any other call on the same row. -/
structure System where
  db : Db
  locks : List (Int × Nat)
  sessions : List Session
deriving DecidableEq, Repr

namespace System

/-- Two or more calls issued against a table, none of which has started. -/
def init (db : Db) (calls : List (Int × Int)) : System :=
  { db := db, locks := [],
    sessions := calls.map (fun c => { id := c.1, amount := c.2, pc := .start }) }

/-- Move call `i` to program point `pc`. -/
def setPc (s : System) (i : Nat) (pc : Pc) : System :=
  { s with sessions := s.sessions.modify (fun ses => { ses with pc := pc }) i }

/-- Release the locks of call `i`. -/
def unlock (s : System) (i : Nat) : System :=
  { s with locks := s.locks.filter (fun l => l.2 != i) }

/-- One step of call `i`: `none` when the call does not exist, has finished,
or waits for a row lock. -/
def step (s : System) (i : Nat) : Option System :=
  match s.sessions[i]? with
  | none => none
  | some ses =>
    match ses.pc with
    | .start =>
      if ses.amount ≤ 0 then
        some (s.setPc i (.done (.error (.Error "Amount must be a positive integer"))))
      else some (s.setPc i .connected)
    | .connected => some (s.setPc i .begun)
    | .begun =>
      if s.locks.any (fun l => l.1 == ses.id && l.2 != i) then none
      else
        match s.db.selectById ses.id with
        | [] => some (s.setPc i (.failing (.Error "Product not found")))
        | row :: _ =>
          let s := { s with locks := (ses.id, i) :: s.locks }
          let currentStock := row.stock_quantity
          if currentStock < ses.amount then
            some (s.setPc i (.failing (.InsufficientStockError
              (insufficientStockMessage currentStock ses.amount))))
          else some (s.setPc i .checked)
    | .checked => some (s.setPc i .updated)
    | .updated =>
      some (({ s with db := decrementRows s.db ses.id ses.amount }.unlock i).setPc i .committed)
    | .committed => some (s.setPc i (.done (.ok (Product.findById s.db ses.id))))
    | .failing err => some ((s.unlock i).setPc i (.done (.error err)))
    | .done _ => none

/-- Run a schedule: each entry names the call that moves next; an entry that
names a call unable to move is skipped. -/
def run (s : System) : List Nat → System
  | [] => s
  | i :: schedule =>
    match s.step i with
    | some s' => run s' schedule
    | none => run s schedule

/-- What each call returned or threw, for the calls that have finished. -/
def results (s : System) : List (Option (Except JsError (Option Product))) :=
  s.sessions.map (fun ses => match ses.pc with
    | .done result => some result
    | _ => none)

/-- Every call has returned or thrown. -/
def allDone (s : System) : Bool :=
  s.results.all Option.isSome

end System

/-- The number of steps a call at this program point can still take. -/
def Pc.remaining : Pc → Nat
  | .start => 6
  | .connected => 5
  | .begun => 4
  | .checked => 3
  | .updated => 2
  | .committed => 1
  | .failing _ => 1
  | .done _ => 0

/-- The number of steps the calls in flight can still take. -/
def System.remaining (s : System) : Nat :=
  (s.sessions.map (fun ses => ses.pc.remaining)).sum

/-- Program points before the locking read. -/
def Pc.pre (a : Pc) : Prop := a = .start ∨ a = .connected ∨ a = .begun

/-- Program points of a call that holds the lock with the check passed. -/
def Pc.hold (a : Pc) : Prop := a = .checked ∨ a = .updated

/-- Program points of a call that has committed and reads, or has read,
`product`. -/
def Pc.finished (product : Product) (a : Pc) : Prop :=
  a = .committed ∨ a = .done (.ok (some product))

/-- The joint states in which call `ia` (at `a`) is the one that takes the
lock first. -/
def Lead (db0 db1 : Db) (id : Int) (product : Product) (err : JsError)
    (a b : Pc) (ia ib : Nat) (locks : List (Int × Nat)) (d : Db) : Prop :=
  (a.hold ∧ b.pre ∧ locks = [(id, ia)] ∧ d = db0) ∨
  (a.finished product ∧ b.pre ∧ locks = [] ∧ d = db1) ∨
  (a.finished product ∧ b = .failing err ∧ locks = [(id, ib)] ∧ d = db1) ∨
  (a.finished product ∧ b = .done (.error err) ∧ locks = [] ∧ d = db1)

/-- The joint states of two calls `decreaseStock(id, amount)`. -/
def RaceInv (db0 db1 : Db) (id amount : Int) (product : Product) (err : JsError)
    (s : System) : Prop :=
  ∃ a b, s.sessions = [{ id := id, amount := amount, pc := a },
                       { id := id, amount := amount, pc := b }] ∧
    ((a.pre ∧ b.pre ∧ s.locks = [] ∧ s.db = db0) ∨
      Lead db0 db1 id product err a b 0 1 s.locks s.db ∨
      Lead db0 db1 id product err b a 1 0 s.locks s.db)

/-! ## JavaScript values reaching the handlers -/

/-- A JavaScript number as the handlers test it: `NaN`, an integer, or any
other number (a fraction or an infinity), of which only the sign matters. -/
inductive JsNumber where
  | nan
  | int (n : Int)
  | nonInteger (positive : Bool)
deriving DecidableEq, Repr

namespace JsNumber

/-- `isNaN(x)`. -/
def isNaN : JsNumber → Bool
  | nan => true
  | _ => false

/-- `Number.isInteger(x)`. -/
def isInteger : JsNumber → Bool
  | int _ => true
  | _ => false

/-- `x <= 0`. -/
def leZero : JsNumber → Bool
  | nan => false
  | int n => decide (n ≤ 0)
  | nonInteger positive => !positive

end JsNumber

/-- A string-valued field of a JSON body: absent, a string, or a value of
another type. -/
inductive JsValue where
  | undefined
  | string (s : String)
  | other
deriving DecidableEq, Repr

/-- `typeof value === 'string'`. -/
def JsValue.isString : JsValue → Bool
  | .string _ => true
  | _ => false

/-- The code points removed by `String.prototype.trim`: ECMAScript white space
and line terminators. -/
def isJsWhiteSpace (c : Char) : Bool :=
  c.toNat ∈ [0x9, 0xA, 0xB, 0xC, 0xD, 0x20, 0xA0, 0x1680, 0x2028, 0x2029, 0x202F, 0x205F,
    0x3000, 0xFEFF] || (0x2000 ≤ c.toNat && c.toNat ≤ 0x200A)

/-- `s.trim()`. -/
def jsTrim (s : String) : String :=
  ⟨(s.data.dropWhile isJsWhiteSpace).rdropWhile isJsWhiteSpace⟩

/-- `s.includes(sub)`. -/
def jsIncludes (s sub : String) : Bool :=
  decide (sub.data <:+: s.data)

/-- The payload passed to `res.json` / `res.send`. -/
inductive Body where
  | error (message : String)
  | product (p : Product)
  | empty
deriving DecidableEq, Repr

/-- An HTTP response: status code and payload. -/
structure Response where
  status : Nat
  body : Body
deriving DecidableEq, Repr

/-- The global error handler of `app.js` on the exceptions of this model. -/
def errorHandler (err : JsError) : Response :=
  match err.statusCode with
  | some code => { status := code, body := .error err.message }
  | none => { status := 500, body := .error "Internal server error" }

/-! ## `middleware/validateProduct.js` -/

/-- `validateProductId` on `Number(req.params.id)`: the clean id it attaches
to the request, or the error it passes to `next`. -/
def validateProductId (id : JsNumber) : Except JsError Int :=
  match id with
  | .int n =>
    if id.isNaN || id.leZero || !id.isInteger then
      .error (.ValidationError "Product ID must be a positive integer")
    else .ok n
  | _ => .error (.ValidationError "Product ID must be a positive integer")

/-- `isNonEmptyString`. -/
def isNonEmptyString (value : JsValue) : Bool :=
  match value with
  | .string s => jsTrim s != ""
  | _ => false

/-- `isNonNegativeInteger` on `Number(value)`, giving the integer when the
test passes. -/
def isNonNegativeInteger (value : JsNumber) : Option Int :=
  match value with
  | .int n => if !value.isNaN && value.isInteger && decide (n ≥ 0) then some n else none
  | _ => none

/-- The body of a create request once `validateCreateProduct` has sanitised
it. -/
structure CreateBody where
  name : String
  description : String
  stock_quantity : Int
  low_stock_threshold : Int
deriving DecidableEq, Repr

/-- `validateCreateProduct`: the sanitised body, or the error passed to
`next`.  The quantities are given as `Number(value)` when present. -/
def validateCreateProduct (name description : JsValue)
    (stock_quantity low_stock_threshold : Option JsNumber) : Except JsError CreateBody :=
  match name with
  | .string nameString =>
    if !isNonEmptyString name then
      .error (.ValidationError "Product name is required and must be a non-empty string")
    else if description ≠ .undefined ∧ !description.isString then
      .error (.ValidationError "Description must be a string")
    else if stock_quantity ≠ none ∧ stock_quantity.bind isNonNegativeInteger = none then
      .error (.ValidationError "Stock quantity must be a non-negative integer")
    else if low_stock_threshold ≠ none ∧
        low_stock_threshold.bind isNonNegativeInteger = none then
      .error (.ValidationError "Low stock threshold must be a non-negative integer")
    else
      .ok { name := jsTrim nameString,
            description := match description with
              | .string d => if d = "" then "" else jsTrim d
              | _ => "",
            stock_quantity := (stock_quantity.bind isNonNegativeInteger).getD 0,
            low_stock_threshold := (low_stock_threshold.bind isNonNegativeInteger).getD 10 }
  | _ => .error (.ValidationError "Product name is required and must be a non-empty string")

/-! ## `controllers/productController.js` -/

/-- `createProduct` on a sanitised body. -/
def createProduct (db : Db) (body : CreateBody) : Db × Response :=
  if body.name = "" ∨ jsTrim body.name = "" then
    (db, { status := 400,
           body := .error "Product name is required and must be a non-empty string" })
  else
    match Product.create db (jsTrim body.name) (jsTrim body.description)
        (some body.stock_quantity) (some body.low_stock_threshold) with
    | (db', .ok product) => (db', { status := 201, body := .product product })
    | (db', .error err) =>
      if jsIncludes err.message "cannot be negative" then
        (db', { status := 400, body := .error err.message })
      else (db', errorHandler err)

/-- `updateProduct` on the id attached by `validateProductId`; a body field is
`none` when the key is absent and a string otherwise. -/
def updateProduct (db : Db) (id : Int) (name description : Option String) : Db × Response :=
  if id ≤ 0 then
    (db, { status := 400, body := .error "Invalid product ID" })
  else if name = none ∧ description = none then
    (db, { status := 400,
           body := .error "At least one field (name or description) must be provided" })
  else
    match Product.update db id name description with
    | (db', .ok none) => (db', { status := 404, body := .error "Product not found" })
    | (db', .ok (some product)) => (db', { status := 200, body := .product product })
    | (db', .error err) => (db', errorHandler err)

/-- `deleteProduct` on the id attached by `validateProductId`. -/
def deleteProduct (db : Db) (id : Int) : Db × Response :=
  if id ≤ 0 then
    (db, { status := 400, body := .error "Invalid product ID" })
  else
    let (db', deleted) := Product.delete db id
    if !deleted then (db', { status := 404, body := .error "Product not found" })
    else (db', { status := 204, body := .empty })

/-! ## `routes/products.js` -/

/-- `router.post('/', validateCreateProduct, createProduct)`. -/
def routePost (db : Db) (name description : JsValue)
    (stock_quantity low_stock_threshold : Option JsNumber) : Db × Response :=
  match validateCreateProduct name description stock_quantity low_stock_threshold with
  | .error err => (db, errorHandler err)
  | .ok body => createProduct db body

/-- `router.put('/:id', validateProductId, updateProduct)`. -/
def routePut (db : Db) (id : JsNumber) (name description : Option String) : Db × Response :=
  match validateProductId id with
  | .error err => (db, errorHandler err)
  | .ok id => updateProduct db id name description

/-- `router.delete('/:id', validateProductId, deleteProduct)`. -/
def routeDelete (db : Db) (id : JsNumber) : Db × Response :=
  match validateProductId id with
  | .error err => (db, errorHandler err)
  | .ok id => deleteProduct db id

/-- The data-model constraint on names: non-empty and trimmed. -/
def Db.NamesTrimmed (db : Db) : Prop :=
  ∀ r ∈ db.rows, r.name ≠ "" ∧ jsTrim r.name = r.name

/-! ## Example data -/

/-- The product of the spec's worked example, as stored under id 1. -/
def widget : Product :=
  { id := 1, name := "Widget", description := "", stock_quantity := 5, low_stock_threshold := 10 }

/-- A table holding only `widget`. -/
def widgetDb : Db := { rows := [widget], autoIncrement := 2 }

/-- A product with ten items in stock. -/
def crate : Product :=
  { id := 7, name := "Crate", description := "", stock_quantity := 10, low_stock_threshold := 2 }

/-- A table holding `widget` and `crate`. -/
def crateDb : Db := { rows := [widget, crate], autoIncrement := 8 }

/-! ## Lemmas on the store -/

theorem filter_id_of_mem {l : List Product} {r : Product}
    (hnd : (l.map (fun x => x.id)).Nodup) (hr : r ∈ l) :
    l.filter (fun x => x.id == r.id) = [r] := by
  induction l with
  | nil => cases hr
  | cons a l ih =>
    rw [List.map_cons, List.nodup_cons] at hnd
    rcases List.mem_cons.1 hr with h | h
    · subst h
      have hrest : l.filter (fun x => x.id == r.id) = [] := by
        rw [List.filter_eq_nil_iff]
        intro x hx hxid
        exact hnd.1 (List.mem_map.2 ⟨x, hx, by simpa using hxid⟩)
      simp [List.filter_cons, hrest]
    · have hne : ¬ a.id = r.id := by
        intro heq
        exact hnd.1 (List.mem_map.2 ⟨r, h, heq.symm⟩)
      simp [List.filter_cons, hne, ih hnd.2 h]

theorem filter_id_of_not_mem {l : List Product} {id : Int}
    (h : ∀ r ∈ l, r.id ≠ id) : l.filter (fun x => x.id == id) = [] := by
  rw [List.filter_eq_nil_iff]
  intro x hx hxid
  exact h x hx (by simpa using hxid)

theorem filter_id_map_of_mem {l : List Product} {r : Product} (g : Product → Product)
    (hg : ∀ x, (g x).id = x.id)
    (hnd : (l.map (fun x => x.id)).Nodup) (hr : r ∈ l) :
    (l.map g).filter (fun x => x.id == r.id) = [g r] := by
  rw [List.filter_map]
  have hfun : ((fun x : Product => x.id == r.id) ∘ g) = (fun x => x.id == r.id) := by
    funext x
    simp [Function.comp, hg x]
  rw [hfun, filter_id_of_mem hnd hr, List.map_singleton]

theorem Db.selectById_of_mem {db : Db} {r : Product} (hpk : db.PrimaryKey) (hr : r ∈ db.rows) :
    db.selectById r.id = [r] :=
  filter_id_of_mem hpk.1 hr

theorem Product.findById_of_mem {db : Db} {r : Product} (hpk : db.PrimaryKey)
    (hr : r ∈ db.rows) : Product.findById db r.id = some r := by
  simp [Product.findById, Db.selectById_of_mem hpk hr]

theorem decreaseStock_nonpos (db : Db) (id amount : Int) (h : amount ≤ 0) :
    Product.decreaseStock db id amount =
      (db, .error (.Error "Amount must be a positive integer")) := by
  simp [Product.decreaseStock, h]

theorem decreaseStock_absent (db : Db) (id amount : Int) (hpos : 0 < amount)
    (hsel : db.selectById id = []) :
    Product.decreaseStock db id amount = (db, .error (.Error "Product not found")) := by
  simp [Product.decreaseStock, Connection.get, Connection.beginTransaction,
    Connection.rollback, Connection.release, hsel, not_le.2 hpos]

theorem decreaseStock_short (db : Db) (id amount : Int) (row : Product) (rest : List Product)
    (hpos : 0 < amount) (hsel : db.selectById id = row :: rest)
    (hlt : row.stock_quantity < amount) :
    Product.decreaseStock db id amount =
      (db, .error (.InsufficientStockError
        (insufficientStockMessage row.stock_quantity amount))) := by
  simp [Product.decreaseStock, Connection.get, Connection.beginTransaction,
    Connection.rollback, Connection.release, hsel, not_le.2 hpos, hlt]

theorem decreaseStock_enough (db : Db) (id amount : Int) (row : Product) (rest : List Product)
    (hpos : 0 < amount) (hsel : db.selectById id = row :: rest)
    (hle : amount ≤ row.stock_quantity) :
    Product.decreaseStock db id amount =
      (decrementRows db id amount, .ok (Product.findById (decrementRows db id amount) id)) := by
  simp [Product.decreaseStock, Connection.get, Connection.beginTransaction,
    Connection.commit, Connection.release, hsel, not_le.2 hpos, not_lt.2 hle, decrementRows]

theorem findById_decrementRows {db : Db} {row : Product} (amount : Int)
    (hpk : db.PrimaryKey) (hrow : row ∈ db.rows) :
    Product.findById (decrementRows db row.id amount) row.id =
      some { row with stock_quantity := row.stock_quantity - amount } := by
  have h := filter_id_map_of_mem (r := row)
    (fun r => if r.id == row.id then
      { r with stock_quantity := r.stock_quantity - amount } else r)
    (by intro x; by_cases hx : x.id = row.id <;> simp [hx]) hpk.1 hrow
  simp only [beq_self_eq_true, if_true] at h
  simp only [Product.findById, Db.selectById, decrementRows, Db.execUpdate, h]

theorem Db.primaryKey_execUpdate {db : Db} (cond : Product → Bool) (set : Product → Product)
    (hset : ∀ r, (set r).id = r.id) (hpk : db.PrimaryKey) :
    (db.execUpdate cond set).1.PrimaryKey := by
  have hid : ∀ r : Product, (if cond r then set r else r).id = r.id := by
    intro r
    by_cases h : cond r <;> simp [h, hset r]
  refine ⟨?_, hpk.2.1, ?_⟩
  · have hmap : (db.rows.map (fun r => if cond r then set r else r)).map (fun r => r.id)
        = db.rows.map (fun r => r.id) := by
      rw [List.map_map]
      exact List.map_congr_left (fun r _ => hid r)
    simpa [Db.execUpdate, hmap] using hpk.1
  · intro r hr
    obtain ⟨r0, hr0, rfl⟩ := List.mem_map.1 hr
    rw [hid r0]
    exact hpk.2.2 r0 hr0

theorem Db.primaryKey_execDelete {db : Db} (id : Int) (hpk : db.PrimaryKey) :
    (db.execDelete id).1.PrimaryKey := by
  refine ⟨?_, hpk.2.1, ?_⟩
  · exact hpk.1.sublist ((List.filter_sublist _).map _)
  · intro r hr
    exact hpk.2.2 r (List.mem_filter.1 hr).1

theorem Db.primaryKey_execInsert {db : Db} (name description : String)
    (stock_quantity low_stock_threshold : Int) (hpk : db.PrimaryKey) :
    (db.execInsert name description stock_quantity low_stock_threshold).1.PrimaryKey := by
  refine ⟨?_, ?_, ?_⟩
  · simp only [Db.execInsert, List.map_append, List.map_cons, List.map_nil]
    refine List.Nodup.append hpk.1 (List.nodup_singleton _) ?_
    intro x hx hx'
    obtain ⟨r, hr, rfl⟩ := List.mem_map.1 hx
    rw [List.mem_singleton] at hx'
    have := (hpk.2.2 r hr).2
    omega
  · have := hpk.2.1
    simp only [Db.execInsert]
    omega
  · intro r hr
    simp only [Db.execInsert, List.mem_append, List.mem_singleton] at hr ⊢
    rcases hr with hr | rfl
    · have := hpk.2.2 r hr
      omega
    · have := hpk.2.1
      simp only
      omega

theorem foldl_apply_id (fields : List Assignment) (r : Product) :
    (fields.foldl Assignment.apply r).id = r.id := by
  induction fields generalizing r with
  | nil => rfl
  | cons a fields ih => cases a <;> simp [List.foldl_cons, ih, Assignment.apply]

theorem foldl_apply_stock (fields : List Assignment) (r : Product) :
    (fields.foldl Assignment.apply r).stock_quantity = r.stock_quantity := by
  induction fields generalizing r with
  | nil => rfl
  | cons a fields ih => cases a <;> simp [List.foldl_cons, ih, Assignment.apply]

theorem foldl_apply_threshold (fields : List Assignment) (r : Product) :
    (fields.foldl Assignment.apply r).low_stock_threshold = r.low_stock_threshold := by
  induction fields generalizing r with
  | nil => rfl
  | cons a fields ih => cases a <;> simp [List.foldl_cons, ih, Assignment.apply]

theorem update_eq (db : Db) (id : Int) (name description : Option String) :
    Product.update db id name description =
      if (setClause name description).length = 0 then
        (db, .error (.Error "No valid fields to update"))
      else if (db.selectById id).length = 0 then
        ((db.execUpdate (fun r => r.id == id)
          (fun r => (setClause name description).foldl Assignment.apply r)).1, .ok none)
      else
        ((db.execUpdate (fun r => r.id == id)
          (fun r => (setClause name description).foldl Assignment.apply r)).1,
         .ok (Product.findById (db.execUpdate (fun r => r.id == id)
          (fun r => (setClause name description).foldl Assignment.apply r)).1 id)) := by
  cases name <;> cases description <;> rfl

/-- The table left by `Product.update`. -/
theorem update_fst (db : Db) (id : Int) (name description : Option String) :
    ∃ fields : List Assignment, (Product.update db id name description).1 = db ∨
      (Product.update db id name description).1 =
        (db.execUpdate (fun r => r.id == id) (fun r => fields.foldl Assignment.apply r)).1 := by
  refine ⟨setClause name description, ?_⟩
  rw [update_eq]
  split_ifs
  · exact Or.inl rfl
  · exact Or.inr rfl
  · exact Or.inr rfl

theorem increaseStock_fst (db : Db) (id amount : Int) :
    (Product.increaseStock db id amount).1 = db ∨
      (0 < amount ∧ (Product.increaseStock db id amount).1 =
        (db.execUpdate (fun r => r.id == id && decide (r.stock_quantity ≥ 0))
          (fun r => { r with stock_quantity := r.stock_quantity + amount })).1) := by
  by_cases h : amount ≤ 0
  · exact Or.inl (by simp [Product.increaseStock, h])
  · refine Or.inr ⟨not_le.1 h, ?_⟩
    simp only [Product.increaseStock, h, if_false]
    split <;> rfl

theorem decreaseStock_fst (db : Db) (id amount : Int) :
    (Product.decreaseStock db id amount).1 = db ∨
      ∃ row rest, db.selectById id = row :: rest ∧ amount ≤ row.stock_quantity ∧
        (Product.decreaseStock db id amount).1 = decrementRows db id amount := by
  by_cases h : amount ≤ 0
  · exact Or.inl (by rw [decreaseStock_nonpos db id amount h])
  · have hpos := not_le.1 h
    cases hsel : db.selectById id with
    | nil => exact Or.inl (by rw [decreaseStock_absent db id amount hpos hsel])
    | cons row rest =>
      by_cases hlt : row.stock_quantity < amount
      · exact Or.inl (by rw [decreaseStock_short db id amount row rest hpos hsel hlt])
      · exact Or.inr ⟨row, rest, rfl, not_lt.1 hlt,
          by rw [decreaseStock_enough db id amount row rest hpos hsel (not_lt.1 hlt)]⟩

theorem Call.run_primaryKey (db : Db) (call : Call) (hpk : db.PrimaryKey) :
    (call.run db).PrimaryKey := by
  cases call with
  | create name description stock_quantity low_stock_threshold =>
    simp only [Call.run, Product.create]
    split_ifs
    · exact hpk
    · exact hpk
    · exact Db.primaryKey_execInsert _ _ _ _ hpk
  | update id name description =>
    obtain ⟨fields, h | h⟩ := update_fst db id name description
    · simpa [Call.run, h] using hpk
    · simp only [Call.run, h]
      exact Db.primaryKey_execUpdate _ _ (fun r => foldl_apply_id fields r) hpk
  | delete id => exact Db.primaryKey_execDelete id hpk
  | increaseStock id amount =>
    rcases increaseStock_fst db id amount with h | ⟨_, h⟩
    · simpa [Call.run, h] using hpk
    · simp only [Call.run, h]
      exact Db.primaryKey_execUpdate _ _ (fun _ => rfl) hpk
  | decreaseStock id amount =>
    rcases decreaseStock_fst db id amount with h | ⟨_, _, _, _, h⟩
    · simpa [Call.run, h] using hpk
    · simp only [Call.run, h]
      exact Db.primaryKey_execUpdate _ _ (fun _ => rfl) hpk

theorem Db.execUpdate_of_no_match (db : Db) (cond : Product → Bool) (set : Product → Product)
    (h : ∀ r ∈ db.rows, cond r = false) : db.execUpdate cond set = (db, 0) := by
  have hrows : db.rows.map (fun r => if cond r then set r else r) = db.rows := by
    conv_rhs => rw [← List.map_id db.rows]
    exact List.map_congr_left (fun r hr => by simp [h r hr])
  have hlen : (db.rows.filter cond).length = 0 := by
    rw [List.length_eq_zero, List.filter_eq_nil_iff]
    intro r hr
    simp [h r hr]
  simp only [Db.execUpdate, hrows, hlen]

theorem Db.execUpdate_affected_pos (db : Db) (cond : Product → Bool) (set : Product → Product)
    {row : Product} (hrow : row ∈ db.rows) (hc : cond row = true) :
    (db.execUpdate cond set).2 ≠ 0 := by
  have : row ∈ db.rows.filter cond := List.mem_filter.2 ⟨hrow, hc⟩
  simp only [Db.execUpdate, ne_eq, List.length_eq_zero]
  intro h
  rw [h] at this
  cases this

theorem findById_execUpdate (db : Db) (cond : Product → Bool) (set : Product → Product)
    {row : Product} (hset : ∀ r, (set r).id = r.id)
    (hpk : db.PrimaryKey) (hrow : row ∈ db.rows) :
    Product.findById (db.execUpdate cond set).1 row.id =
      some (if cond row then set row else row) := by
  have h := filter_id_map_of_mem (r := row) (fun r => if cond r then set r else r)
    (by intro x; by_cases hx : cond x <;> simp [hx, hset x]) hpk.1 hrow
  simp only [Product.findById, Db.selectById, Db.execUpdate, h]

theorem mem_getLowStockProducts {db : Db} {p : Product} :
    p ∈ Product.getLowStockProducts db ↔
      p ∈ db.rows ∧ p.stock_quantity < p.low_stock_threshold := by
  simp only [Product.getLowStockProducts, Db.selectLowStock]
  rw [(List.perm_insertionSort _ _).mem_iff, List.mem_filter, decide_eq_true_eq]

theorem increaseStock_nonpos (db : Db) (id amount : Int) (h : amount ≤ 0) :
    Product.increaseStock db id amount =
      (db, .error (.Error "Amount must be a positive integer")) := by
  simp [Product.increaseStock, h]

theorem increaseStock_absent (db : Db) (id amount : Int) (hpos : 0 < amount)
    (habs : ∀ r ∈ db.rows, r.id ≠ id) :
    Product.increaseStock db id amount = (db, .error (.Error "Product not found")) := by
  have h := Db.execUpdate_of_no_match db
    (fun r => r.id == id && decide (r.stock_quantity ≥ 0))
    (fun r => { r with stock_quantity := r.stock_quantity + amount })
    (by intro r hr; simp [habs r hr])
  simp only [Product.increaseStock, not_le.2 hpos, if_false, h, if_true]

theorem increaseStock_present (db : Db) (row : Product) (amount : Int) (hpos : 0 < amount)
    (hpk : db.PrimaryKey) (hrow : row ∈ db.rows) (hstock : 0 ≤ row.stock_quantity) :
    Product.increaseStock db row.id amount =
      ((db.execUpdate (fun r => r.id == row.id && decide (r.stock_quantity ≥ 0))
          (fun r => { r with stock_quantity := r.stock_quantity + amount })).1,
       .ok (some { row with stock_quantity := row.stock_quantity + amount })) := by
  have hc : (fun r : Product => r.id == row.id && decide (r.stock_quantity ≥ 0)) row = true := by
    simp [hstock]
  have haff := Db.execUpdate_affected_pos db
    (fun r => r.id == row.id && decide (r.stock_quantity ≥ 0))
    (fun r => { r with stock_quantity := r.stock_quantity + amount }) hrow hc
  have hfind := findById_execUpdate db
    (fun r => r.id == row.id && decide (r.stock_quantity ≥ 0))
    (fun r => { r with stock_quantity := r.stock_quantity + amount })
    (fun _ => rfl) hpk hrow
  rw [hc, if_pos rfl] at hfind
  simp only [Product.increaseStock, not_le.2 hpos, if_false, haff, hfind]

/-- The guard of the `UPDATE`: a row with negative stock is not matched. -/
theorem increaseStock_guard (db : Db) (row : Product) (amount : Int) (hpos : 0 < amount)
    (hpk : db.PrimaryKey) (hrow : row ∈ db.rows) (hneg : row.stock_quantity < 0) :
    Product.increaseStock db row.id amount = (db, .error (.Error "Product not found")) := by
  have h := Db.execUpdate_of_no_match db
    (fun r => r.id == row.id && decide (r.stock_quantity ≥ 0))
    (fun r => { r with stock_quantity := r.stock_quantity + amount })
    (by
      intro r hr
      by_cases hrid : r.id = row.id
      · have hrr : r = row := List.inj_on_of_nodup_map hpk.1 hr hrow hrid
        subst hrr
        simp [not_le.2 hneg]
      · simp [hrid])
  simp only [Product.increaseStock, not_le.2 hpos, if_false, h, if_true]

theorem findById_some {db : Db} {id : Int} {p : Product}
    (h : Product.findById db id = some p) : p ∈ db.rows ∧ p.id = id := by
  simp only [Product.findById] at h
  cases hsel : db.selectById id with
  | nil =>
    rw [hsel] at h
    cases h
  | cons q rest =>
    rw [hsel] at h
    cases h
    have hm : p ∈ db.selectById id := by rw [hsel]; exact List.mem_cons_self _ _
    simpa [Db.selectById] using hm

theorem create_valid (db : Db) (name description : String)
    (stock_quantity low_stock_threshold : Int)
    (h1 : 0 ≤ stock_quantity) (h2 : 0 ≤ low_stock_threshold) :
    Product.create db name description (some stock_quantity) (some low_stock_threshold) =
      ({ rows := db.rows ++ [{ id := db.autoIncrement, name := name, description := description,
                               stock_quantity := stock_quantity,
                               low_stock_threshold := low_stock_threshold }],
         autoIncrement := db.autoIncrement + 1 },
       .ok { id := db.autoIncrement, name := name, description := description,
             stock_quantity := stock_quantity, low_stock_threshold := low_stock_threshold }) := by
  simp [Product.create, Db.execInsert, not_lt.2 h1, not_lt.2 h2]

theorem low_stock_example (db : Db) (w : Product) (hpk : db.PrimaryKey) (hmem : w ∈ db.rows)
    (h5 : w.stock_quantity = 5) (h10 : w.low_stock_threshold = 10) :
    w ∈ Product.getLowStockProducts db ∧
      ∃ q : Product, (Product.increaseStock db w.id 10).2 = .ok (some q) ∧
        q.id = w.id ∧ q.stock_quantity = 15 ∧
        ∀ x ∈ Product.getLowStockProducts (Product.increaseStock db w.id 10).1,
          x.id ≠ w.id := by
  refine ⟨mem_getLowStockProducts.2 ⟨hmem, by rw [h5, h10]; decide⟩, ?_⟩
  have h := increaseStock_present db w 10 (by decide) hpk hmem (by rw [h5]; decide)
  have hfind := findById_execUpdate db
    (fun r => r.id == w.id && decide (r.stock_quantity ≥ 0))
    (fun r => { r with stock_quantity := r.stock_quantity + 10 })
    (fun _ => rfl) hpk hmem
  have hc : (w.id == w.id && decide (w.stock_quantity ≥ 0)) = true := by
    simp [h5]
  simp only [hc, if_true] at hfind
  have hpk2 := Db.primaryKey_execUpdate
    (fun r => r.id == w.id && decide (r.stock_quantity ≥ 0))
    (fun r => { r with stock_quantity := r.stock_quantity + 10 })
    (fun _ => rfl) hpk
  rw [h]
  refine ⟨_, rfl, rfl, by simp only [h5]; decide, ?_⟩
  intro x hx hxid
  rw [mem_getLowStockProducts] at hx
  have hq := findById_some hfind
  have hxq := List.inj_on_of_nodup_map hpk2.1 hx.1 hq.1 (by simp only [hxid])
  have hlt := hx.2
  rw [hxq] at hlt
  simp only [h5, h10] at hlt
  exact absurd hlt (by decide)

theorem delete_of_absent (db : Db) (id : Int) (h : ∀ r ∈ db.rows, r.id ≠ id) :
    Product.delete db id = (db, false) := by
  have hkeep : db.rows.filter (fun r => !(r.id == id)) = db.rows := by
    rw [List.filter_eq_self]
    intro r hr
    simp [h r hr]
  have hnone : db.rows.filter (fun r => r.id == id) = [] := filter_id_of_not_mem h
  simp only [Product.delete, Db.execDelete, hkeep, hnone, List.length_nil, gt_iff_lt,
    lt_self_iff_false, decide_False]

theorem delete_rows_absent (db : Db) (id : Int) :
    ∀ r ∈ (Product.delete db id).1.rows, r.id ≠ id := by
  intro r hr
  have := (List.mem_filter.1 hr).2
  simpa using this

theorem findById_of_absent (db : Db) (id : Int) (h : ∀ r ∈ db.rows, r.id ≠ id) :
    Product.findById db id = none := by
  simp only [Product.findById, Db.selectById, filter_id_of_not_mem h]

theorem dropWhile_rdropWhile_self (p : Char → Bool) (l : List Char) :
    ((l.dropWhile p).rdropWhile p).dropWhile p = (l.dropWhile p).rdropWhile p := by
  obtain ⟨u, hu⟩ := List.rdropWhile_prefix p (l := l.dropWhile p)
  cases ht : (l.dropWhile p).rdropWhile p with
  | nil => rfl
  | cons a t =>
    rw [ht] at hu
    have hne : l.dropWhile p ≠ [] := by rw [← hu]; simp
    have hhead := List.head_dropWhile_not p l hne
    have ha : (l.dropWhile p).head hne = a := by
      simp only [← hu, List.cons_append, List.head_cons]
    rw [ha] at hhead
    simp [List.dropWhile_cons, hhead]

theorem jsTrim_idempotent (s : String) : jsTrim (jsTrim s) = jsTrim s := by
  simp only [jsTrim, dropWhile_rdropWhile_self, List.rdropWhile_idempotent]

theorem createProduct_namesTrimmed (db : Db) (body : CreateBody) (h : db.NamesTrimmed) :
    (createProduct db body).1.NamesTrimmed := by
  unfold createProduct
  split_ifs with hname
  · exact h
  · have hne : jsTrim body.name ≠ "" := fun hc => hname (Or.inr hc)
    by_cases h1 : body.stock_quantity < 0
    · simpa [Product.create, h1] using h
    · by_cases h2 : body.low_stock_threshold < 0
      · simpa [Product.create, h1, h2] using h
      · rw [create_valid db _ _ _ _ (not_lt.1 h1) (not_lt.1 h2)]
        intro r hr
        simp only [List.mem_append, List.mem_singleton] at hr
        rcases hr with hr | rfl
        · exact h r hr
        · exact ⟨hne, jsTrim_idempotent _⟩

/-- The create route keeps every stored name non-empty and trimmed, whatever
the request body. -/
theorem routePost_namesTrimmed (db : Db) (name description : JsValue)
    (stock_quantity low_stock_threshold : Option JsNumber) (h : db.NamesTrimmed) :
    (routePost db name description stock_quantity low_stock_threshold).1.NamesTrimmed := by
  unfold routePost
  split
  · exact h
  · exact createProduct_namesTrimmed db _ h

/-! ## Lemmas on concurrent calls -/

theorem raceInv_step (db0 db1 : Db) (id amount : Int) (row product : Product) (err : JsError)
    (hpos : 0 < amount)
    (h0 : db0.selectById id = [row]) (hge : amount ≤ row.stock_quantity)
    (hdec : decrementRows db0 id amount = db1)
    (h1 : db1.selectById id = [product]) (hlt : product.stock_quantity < amount)
    (herr : err = .InsufficientStockError
      (insufficientStockMessage product.stock_quantity amount))
    (s s' : System) (i : Nat)
    (hinv : RaceInv db0 db1 id amount product err s) (hstep : s.step i = some s') :
    RaceInv db0 db1 id amount product err s' ∧ s'.remaining < s.remaining := by
  obtain ⟨a, b, hs, hph⟩ := hinv
  obtain ⟨d, locks, sessions⟩ := s
  simp only at hs hph
  subst hs herr
  have hf : Product.findById db1 id = some product := by
    simp only [Product.findById, h1]
  simp only [Lead, Pc.pre, Pc.hold, Pc.finished] at hph
  rcases hph with ⟨rfl | rfl | rfl, rfl | rfl | rfl, hl, hd⟩ |
    (⟨rfl | rfl, rfl | rfl | rfl, hl, hd⟩ | ⟨rfl | rfl, rfl | rfl | rfl, hl, hd⟩ |
      ⟨rfl | rfl, rfl, hl, hd⟩ | ⟨rfl | rfl, rfl, hl, hd⟩) |
    (⟨rfl | rfl, rfl | rfl | rfl, hl, hd⟩ | ⟨rfl | rfl, rfl | rfl | rfl, hl, hd⟩ |
      ⟨rfl | rfl, rfl, hl, hd⟩ | ⟨rfl | rfl, rfl, hl, hd⟩) <;>
  subst hl hd <;>
  rcases i with _ | _ | i <;>
  simp [System.step, System.setPc, System.unlock, not_le.2 hpos, h0, h1, hf, not_lt.2 hge,
    hlt, hdec] at hstep <;>
  subst hstep <;>
  refine ⟨⟨_, _, rfl, ?_⟩, ?_⟩ <;>
  simp [Pc.pre, Pc.hold, Pc.finished, Lead, System.remaining, Pc.remaining]

theorem raceInv_progress (db0 db1 : Db) (id amount : Int) (row product : Product)
    (err : JsError) (hpos : 0 < amount)
    (h0 : db0.selectById id = [row]) (hge : amount ≤ row.stock_quantity)
    (h1 : db1.selectById id = [product]) (hlt : product.stock_quantity < amount)
    (s : System) (hinv : RaceInv db0 db1 id amount product err s) :
    s.allDone = true ∨ (s.step 0).isSome = true ∨ (s.step 1).isSome = true := by
  obtain ⟨a, b, hs, hph⟩ := hinv
  obtain ⟨d, locks, sessions⟩ := s
  simp only at hs hph
  subst hs
  simp only [Lead, Pc.pre, Pc.hold, Pc.finished] at hph
  rcases hph with ⟨rfl | rfl | rfl, rfl | rfl | rfl, hl, hd⟩ |
    (⟨rfl | rfl, rfl | rfl | rfl, hl, hd⟩ | ⟨rfl | rfl, rfl | rfl | rfl, hl, hd⟩ |
      ⟨rfl | rfl, rfl, hl, hd⟩ | ⟨rfl | rfl, rfl, hl, hd⟩) |
    (⟨rfl | rfl, rfl | rfl | rfl, hl, hd⟩ | ⟨rfl | rfl, rfl | rfl | rfl, hl, hd⟩ |
      ⟨rfl | rfl, rfl, hl, hd⟩ | ⟨rfl | rfl, rfl, hl, hd⟩) <;>
  subst hl hd <;>
  simp [System.step, System.allDone, System.results, not_le.2 hpos, h0, h1, not_lt.2 hge, hlt]

theorem raceInv_allDone (db0 db1 : Db) (id amount : Int) (product : Product) (err : JsError)
    (s : System) (hinv : RaceInv db0 db1 id amount product err s) (hdone : s.allDone = true) :
    s.db = db1 ∧
      (s.results = [some (.ok (some product)), some (.error err)] ∨
       s.results = [some (.error err), some (.ok (some product))]) := by
  obtain ⟨a, b, hs, hph⟩ := hinv
  obtain ⟨d, locks, sessions⟩ := s
  simp only at hs hph
  subst hs
  simp only [Lead, Pc.pre, Pc.hold, Pc.finished] at hph
  rcases hph with ⟨rfl | rfl | rfl, rfl | rfl | rfl, hl, hd⟩ |
    (⟨rfl | rfl, rfl | rfl | rfl, hl, hd⟩ | ⟨rfl | rfl, rfl | rfl | rfl, hl, hd⟩ |
      ⟨rfl | rfl, rfl, hl, hd⟩ | ⟨rfl | rfl, rfl, hl, hd⟩) |
    (⟨rfl | rfl, rfl | rfl | rfl, hl, hd⟩ | ⟨rfl | rfl, rfl | rfl | rfl, hl, hd⟩ |
      ⟨rfl | rfl, rfl, hl, hd⟩ | ⟨rfl | rfl, rfl, hl, hd⟩) <;>
  subst hl hd <;>
  simp [System.allDone, System.results] at hdone ⊢

theorem raceInv_db (db0 db1 : Db) (id amount : Int) (product : Product) (err : JsError)
    (s : System) (hinv : RaceInv db0 db1 id amount product err s) :
    s.db = db0 ∨ s.db = db1 := by
  obtain ⟨a, b, _, hph⟩ := hinv
  simp only [Lead] at hph
  rcases hph with ⟨_, _, _, hd⟩ |
    (⟨_, _, _, hd⟩ | ⟨_, _, _, hd⟩ | ⟨_, _, _, hd⟩ | ⟨_, _, _, hd⟩) |
    (⟨_, _, _, hd⟩ | ⟨_, _, _, hd⟩ | ⟨_, _, _, hd⟩ | ⟨_, _, _, hd⟩)
  all_goals first | exact Or.inl hd | exact Or.inr hd

theorem raceInv_run (db0 db1 : Db) (id amount : Int) (row product : Product) (err : JsError)
    (hpos : 0 < amount)
    (h0 : db0.selectById id = [row]) (hge : amount ≤ row.stock_quantity)
    (hdec : decrementRows db0 id amount = db1)
    (h1 : db1.selectById id = [product]) (hlt : product.stock_quantity < amount)
    (herr : err = .InsufficientStockError
      (insufficientStockMessage product.stock_quantity amount))
    (schedule : List Nat) (s : System)
    (hinv : RaceInv db0 db1 id amount product err s) :
    RaceInv db0 db1 id amount product err (s.run schedule) := by
  induction schedule generalizing s with
  | nil => exact hinv
  | cons i schedule ih =>
    simp only [System.run]
    cases hstep : s.step i with
    | none => exact ih s hinv
    | some s' =>
      exact ih s' (raceInv_step db0 db1 id amount row product err hpos h0 hge hdec h1 hlt herr
        s s' i hinv hstep).1

theorem raceInv_complete (db0 db1 : Db) (id amount : Int) (row product : Product)
    (err : JsError) (hpos : 0 < amount)
    (h0 : db0.selectById id = [row]) (hge : amount ≤ row.stock_quantity)
    (hdec : decrementRows db0 id amount = db1)
    (h1 : db1.selectById id = [product]) (hlt : product.stock_quantity < amount)
    (herr : err = .InsufficientStockError
      (insufficientStockMessage product.stock_quantity amount))
    (n : Nat) (s : System) (hn : s.remaining ≤ n)
    (hinv : RaceInv db0 db1 id amount product err s) :
    ∃ rest : List Nat, rest.length ≤ n ∧ (s.run rest).allDone = true := by
  induction n generalizing s with
  | zero =>
    rcases raceInv_progress db0 db1 id amount row product err hpos h0 hge h1 hlt s hinv
      with h | h | h
    · exact ⟨[], le_refl _, h⟩
    · obtain ⟨s', hs'⟩ := Option.isSome_iff_exists.1 h
      have := (raceInv_step db0 db1 id amount row product err hpos h0 hge hdec h1 hlt herr
        s s' 0 hinv hs').2
      omega
    · obtain ⟨s', hs'⟩ := Option.isSome_iff_exists.1 h
      have := (raceInv_step db0 db1 id amount row product err hpos h0 hge hdec h1 hlt herr
        s s' 1 hinv hs').2
      omega
  | succ n ih =>
    rcases raceInv_progress db0 db1 id amount row product err hpos h0 hge h1 hlt s hinv
      with h | h | h
    · exact ⟨[], Nat.zero_le _, h⟩
    · obtain ⟨s', hs'⟩ := Option.isSome_iff_exists.1 h
      have hst := raceInv_step db0 db1 id amount row product err hpos h0 hge hdec h1 hlt herr
        s s' 0 hinv hs'
      obtain ⟨rest, hlen, hrest⟩ := ih s' (by omega) hst.1
      exact ⟨0 :: rest, by simpa using hlen, by simpa [System.run, hs'] using hrest⟩
    · obtain ⟨s', hs'⟩ := Option.isSome_iff_exists.1 h
      have hst := raceInv_step db0 db1 id amount row product err hpos h0 hge hdec h1 hlt herr
        s s' 1 hinv hs'
      obtain ⟨rest, hlen, hrest⟩ := ih s' (by omega) hst.1
      exact ⟨1 :: rest, by simpa using hlen, by simpa [System.run, hs'] using hrest⟩

/-- A call that runs alone does what `Product.decreaseStock` does. -/
theorem System.run_alone (db : Db) (id amount : Int) :
    ((System.init db [(id, amount)]).run [0, 0, 0, 0, 0, 0]).db =
        (Product.decreaseStock db id amount).1 ∧
      ((System.init db [(id, amount)]).run [0, 0, 0, 0, 0, 0]).results =
        [some (Product.decreaseStock db id amount).2] ∧
      ((System.init db [(id, amount)]).run [0, 0, 0, 0, 0, 0]).locks = [] := by
  by_cases hpos : amount ≤ 0
  · rw [decreaseStock_nonpos db id amount hpos]
    simp [System.init, System.run, System.step, System.setPc, System.results, hpos]
  · cases hsel : db.selectById id with
    | nil =>
      rw [decreaseStock_absent db id amount (not_le.1 hpos) hsel]
      simp [System.init, System.run, System.step, System.setPc, System.unlock,
        System.results, hpos, hsel]
    | cons row rest =>
      by_cases hlt : row.stock_quantity < amount
      · rw [decreaseStock_short db id amount row rest (not_le.1 hpos) hsel hlt]
        simp [System.init, System.run, System.step, System.setPc, System.unlock,
          System.results, hpos, hsel, hlt]
      · rw [decreaseStock_enough db id amount row rest (not_le.1 hpos) hsel (not_lt.1 hlt)]
        simp [System.init, System.run, System.step, System.setPc, System.unlock,
          System.results, hpos, hsel, hlt]

theorem System.run_append (s : System) (xs ys : List Nat) :
    s.run (xs ++ ys) = (s.run xs).run ys := by
  induction xs generalizing s with
  | nil => rfl
  | cons i xs ih =>
    simp only [List.cons_append, System.run]
    cases s.step i <;> exact ih _

/-- The printing of numbers at and around the limits of exact integers and of
plain digits. -/
theorem jsNumberToString_samples :
    jsNumberToString 0 = "0" ∧ jsNumberToString 7 = "7" ∧ jsNumberToString (-15) = "-15" ∧
    jsNumberToString (2 ^ 53 - 1) = "9007199254740991" ∧
    jsNumberToString (2 ^ 63) = "9223372036854776000" ∧
    jsNumberToString (10 ^ 20) = "100000000000000000000" ∧
    jsNumberToString (10 ^ 21) = "1e+21" ∧
    jsNumberToString (2 ^ 70) = "1.1805916207174113e+21" ∧
    jsNumberToString 99999999999999991611392 = "1e+23" := by
  decide

theorem widgetDb_primaryKey : widgetDb.PrimaryKey := by
  simp [Db.PrimaryKey, widgetDb, widget]

/-! ## Stock adjustment -/

/-- C1: on a table with its primary key, a decrease of a positive `amount`
that exceeds the current stock of the product `id` throws
`InsufficientStockError`, whose message carries the available and the
requested quantity as the template literal prints them, and the table after
the rollback is the table before the call. -/
theorem decreaseStock_insufficient (db : Db) (row : Product) (id currentStock amount : Int)
    (hpk : db.PrimaryKey) (hrow : row ∈ db.rows) (hid : row.id = id)
    (hstock : row.stock_quantity = currentStock)
    (hpos : 0 < amount) (hgt : amount > currentStock) :
    Product.decreaseStock db id amount =
      (db, .error (.InsufficientStockError
        ("Insufficient stock. Available: " ++ jsNumberToString currentStock ++
          ", Requested: " ++ jsNumberToString amount))) := by
  subst hid hstock
  exact decreaseStock_short db row.id amount row [] hpos (Db.selectById_of_mem hpk hrow) hgt

theorem decreaseStock_insufficient_witness :
    Product.decreaseStock widgetDb 1 1000000000000000000000 =
      (widgetDb, .error (.InsufficientStockError
        "Insufficient stock. Available: 5, Requested: 1e+21")) :=
  (decreaseStock_insufficient widgetDb widget 1 5 1000000000000000000000 widgetDb_primaryKey
    (by simp [widgetDb]) rfl rfl (by decide) (by decide)).trans (by decide)

/-- C2: on a table with its primary key, a decrease of `amount` with
`0 < amount <= currentStock` succeeds, the product it returns is the stored
row with `stock_quantity = currentStock - amount`, and `findById` on the
resulting table returns that same product. -/
theorem decreaseStock_sufficient (db : Db) (row : Product) (id currentStock amount : Int)
    (hpk : db.PrimaryKey) (hrow : row ∈ db.rows) (hid : row.id = id)
    (hstock : row.stock_quantity = currentStock)
    (hpos : 0 < amount) (hle : amount ≤ currentStock) :
    ∃ p : Product,
      (Product.decreaseStock db id amount).2 = .ok (some p) ∧
      p.id = id ∧ p.name = row.name ∧ p.description = row.description ∧
      p.low_stock_threshold = row.low_stock_threshold ∧
      p.stock_quantity = currentStock - amount ∧
      Product.findById (Product.decreaseStock db id amount).1 id = some p := by
  subst hid hstock
  rw [decreaseStock_enough db row.id amount row [] hpos (Db.selectById_of_mem hpk hrow) hle]
  exact ⟨_, congrArg _ (findById_decrementRows amount hpk hrow), rfl, rfl, rfl, rfl, rfl,
    findById_decrementRows amount hpk hrow⟩

theorem decreaseStock_sufficient_witness :
    ∃ p : Product,
      (Product.decreaseStock widgetDb 1 3).2 = .ok (some p) ∧
      p.id = 1 ∧ p.name = widget.name ∧ p.description = widget.description ∧
      p.low_stock_threshold = widget.low_stock_threshold ∧
      p.stock_quantity = 5 - 3 ∧
      Product.findById (Product.decreaseStock widgetDb 1 3).1 1 = some p :=
  decreaseStock_sufficient widgetDb widget 1 5 3 widgetDb_primaryKey
    (by simp [widgetDb]) rfl rfl (by decide) (by decide)

/-- C3: `stock_quantity >= 0` is an invariant of the table.  On a table with
its primary key where every row has `stock_quantity >= 0`, every call to
`create`, `update`, `delete`, `increaseStock` or `decreaseStock`, with any
arguments and whether it returns or throws, leaves a table that still has its
primary key and where every row has `stock_quantity >= 0`. -/
theorem stock_nonneg_invariant (db : Db) (call : Call)
    (hpk : db.PrimaryKey) (hinv : ∀ r ∈ db.rows, 0 ≤ r.stock_quantity) :
    (call.run db).PrimaryKey ∧ ∀ r ∈ (call.run db).rows, 0 ≤ r.stock_quantity := by
  refine ⟨Call.run_primaryKey db call hpk, ?_⟩
  cases call with
  | create name description stock_quantity low_stock_threshold =>
    simp only [Call.run, Product.create]
    split_ifs with h1 h2
    · exact hinv
    · exact hinv
    · intro r hr
      simp only [Db.execInsert, List.mem_append, List.mem_singleton] at hr
      rcases hr with hr | rfl
      · exact hinv r hr
      · exact not_lt.1 h1
  | update id name description =>
    obtain ⟨fields, h | h⟩ := update_fst db id name description
    · simpa [Call.run, h] using hinv
    · simp only [Call.run, h, Db.execUpdate]
      intro r hr
      obtain ⟨r0, hr0, rfl⟩ := List.mem_map.1 hr
      split_ifs
      · rw [foldl_apply_stock]
        exact hinv r0 hr0
      · exact hinv r0 hr0
  | delete id =>
    intro r hr
    exact hinv r (List.mem_filter.1 hr).1
  | increaseStock id amount =>
    rcases increaseStock_fst db id amount with h | ⟨hpos, h⟩
    · simpa [Call.run, h] using hinv
    · simp only [Call.run, h, Db.execUpdate]
      intro r hr
      obtain ⟨r0, hr0, rfl⟩ := List.mem_map.1 hr
      have := hinv r0 hr0
      split_ifs
      · simp only
        omega
      · exact this
  | decreaseStock id amount =>
    rcases decreaseStock_fst db id amount with h | ⟨row, rest, hsel, hle, h⟩
    · simpa [Call.run, h] using hinv
    · simp only [Call.run, h, decrementRows, Db.execUpdate]
      intro r hr
      obtain ⟨r0, hr0, rfl⟩ := List.mem_map.1 hr
      have hrow : row ∈ db.rows ∧ row.id = id := by
        have hm : row ∈ db.selectById id := by rw [hsel]; exact List.mem_cons_self _ _
        simpa [Db.selectById] using hm
      split_ifs with hc
      · have hc' : r0.id = id := by simpa using hc
        have : r0 = row :=
          List.inj_on_of_nodup_map hpk.1 hr0 hrow.1 (by simp only [hc', hrow.2])
        subst this
        simp only
        omega
      · exact hinv r0 hr0

theorem stock_nonneg_invariant_witness :
    (Call.run widgetDb (.decreaseStock 1 5)).PrimaryKey ∧
      ∀ r ∈ (Call.run widgetDb (.decreaseStock 1 5)).rows, 0 ≤ r.stock_quantity :=
  stock_nonneg_invariant widgetDb (.decreaseStock 1 5) widgetDb_primaryKey
    (by simp [widgetDb, widget])

/-- C5: on a table with its primary key whose rows have `stock_quantity >= 0`,
`increaseStock(id, amount)` throws "Amount must be a positive integer" when
`amount <= 0` and "Product not found" when `amount > 0` and no row has that
id, leaving the table as it was in both cases; otherwise it returns the
product `id` with the previous `stock_quantity` plus `amount`, which is also
what `findById` then reads.  As an instance, a product created with stock 5
and threshold 10 is listed by `getLowStockProducts`, has stock 15 after
`increaseStock(id, 10)` and is then no longer listed. -/
theorem increaseStock_spec (db : Db) (id amount : Int)
    (hpk : db.PrimaryKey) (hinv : ∀ r ∈ db.rows, 0 ≤ r.stock_quantity) :
    (amount ≤ 0 →
      Product.increaseStock db id amount =
        (db, .error (.Error "Amount must be a positive integer"))) ∧
    (0 < amount → (∀ r ∈ db.rows, r.id ≠ id) →
      Product.increaseStock db id amount = (db, .error (.Error "Product not found"))) ∧
    (0 < amount → ∀ row ∈ db.rows, row.id = id →
      ∃ p : Product, (Product.increaseStock db id amount).2 = .ok (some p) ∧
        p.id = id ∧ p.stock_quantity = row.stock_quantity + amount ∧
        Product.findById (Product.increaseStock db id amount).1 id = some p) ∧
    (∀ name description : String,
      ∃ w : Product,
        (Product.create db name description (some 5) (some 10)).2 = .ok w ∧
        w ∈ Product.getLowStockProducts
          (Product.create db name description (some 5) (some 10)).1 ∧
        ∃ q : Product,
          (Product.increaseStock
            (Product.create db name description (some 5) (some 10)).1 w.id 10).2
              = .ok (some q) ∧
          q.id = w.id ∧ q.stock_quantity = 15 ∧
          ∀ x ∈ Product.getLowStockProducts (Product.increaseStock
            (Product.create db name description (some 5) (some 10)).1 w.id 10).1,
            x.id ≠ w.id) := by
  refine ⟨increaseStock_nonpos db id amount, increaseStock_absent db id amount, ?_, ?_⟩
  · intro hpos row hrow hid
    subst hid
    have hstock := hinv row hrow
    have h := increaseStock_present db row amount hpos hpk hrow hstock
    have hfind := findById_execUpdate db
      (fun r => r.id == row.id && decide (r.stock_quantity ≥ 0))
      (fun r => { r with stock_quantity := r.stock_quantity + amount })
      (fun _ => rfl) hpk hrow
    have hc : (row.id == row.id && decide (row.stock_quantity ≥ 0)) = true := by
      simp [hstock]
    simp only [hc, if_true] at hfind
    rw [h]
    exact ⟨_, rfl, rfl, rfl, hfind⟩
  · intro name description
    have hcreate := create_valid db name description 5 10 (by decide) (by decide)
    have hpk1 := Db.primaryKey_execInsert name description 5 10 hpk
    rw [hcreate]
    exact ⟨_, rfl, low_stock_example _ _ hpk1 (by simp [Db.execInsert]) rfl rfl⟩

theorem increaseStock_spec_witness :
    ∃ p : Product, (Product.increaseStock widgetDb 1 10).2 = .ok (some p) ∧
      p.id = 1 ∧ p.stock_quantity = widget.stock_quantity + 10 ∧
      Product.findById (Product.increaseStock widgetDb 1 10).1 1 = some p :=
  (increaseStock_spec widgetDb 1 10 widgetDb_primaryKey
    (by simp [widgetDb, widget])).2.2.1 (by decide) widget (by simp [widgetDb]) rfl

/-- C4: take a table with its primary key and a product with
`stock_quantity = 10`, and two calls `decreaseStock(id, 7)` whose steps are
interleaved by any schedule, the locking read of one call waiting while the
other holds the row lock.  Whenever both calls have finished, one has
returned the product with `stock_quantity = 3`, the other has thrown
`InsufficientStockError` "Available: 3, Requested: 7", and the stored
`stock_quantity` is 3.  From every point of every schedule both calls finish
within 12 more steps, and at every point the stored `stock_quantity` is 10
or 3. -/
theorem concurrent_decreaseStock (db : Db) (row : Product)
    (hpk : db.PrimaryKey) (hrow : row ∈ db.rows) (hstock : row.stock_quantity = 10)
    (schedule : List Nat) :
    (((System.init db [(row.id, 7), (row.id, 7)]).run schedule).allDone = true →
      (((System.init db [(row.id, 7), (row.id, 7)]).run schedule).results =
          [some (.ok (some { row with stock_quantity := 3 })),
           some (.error (.InsufficientStockError
             "Insufficient stock. Available: 3, Requested: 7"))] ∨
        ((System.init db [(row.id, 7), (row.id, 7)]).run schedule).results =
          [some (.error (.InsufficientStockError
             "Insufficient stock. Available: 3, Requested: 7")),
           some (.ok (some { row with stock_quantity := 3 }))]) ∧
      Product.findById ((System.init db [(row.id, 7), (row.id, 7)]).run schedule).db row.id =
        some { row with stock_quantity := 3 }) ∧
    (∃ rest : List Nat, rest.length ≤ 12 ∧
      ((System.init db [(row.id, 7), (row.id, 7)]).run (schedule ++ rest)).allDone = true) ∧
    (∃ p : Product,
      Product.findById ((System.init db [(row.id, 7), (row.id, 7)]).run schedule).db row.id =
        some p ∧ (p.stock_quantity = 10 ∨ p.stock_quantity = 3)) := by
  have h0 : db.selectById row.id = [row] := Db.selectById_of_mem hpk hrow
  have hf0 : Product.findById db row.id = some row := Product.findById_of_mem hpk hrow
  have hf1 : Product.findById (decrementRows db row.id 7) row.id =
      some { row with stock_quantity := 3 } := by
    rw [findById_decrementRows 7 hpk hrow, hstock]
    rfl
  have h1 : (decrementRows db row.id 7).selectById row.id =
      [{ row with stock_quantity := 3 }] := by
    have hpk1 : (decrementRows db row.id 7).PrimaryKey :=
      Db.primaryKey_execUpdate _ _ (fun _ => rfl) hpk
    have hm := findById_some hf1
    exact Db.selectById_of_mem hpk1 hm.1
  have hge : (7 : Int) ≤ row.stock_quantity := by rw [hstock]; decide
  have hlt : ({ row with stock_quantity := 3 } : Product).stock_quantity < 7 := by
    show (3 : Int) < 7
    decide
  have herr : JsError.InsufficientStockError "Insufficient stock. Available: 3, Requested: 7" =
      .InsufficientStockError (insufficientStockMessage
        ({ row with stock_quantity := 3 } : Product).stock_quantity 7) := by
    show _ = JsError.InsufficientStockError (insufficientStockMessage 3 7)
    decide
  have hpos : (0 : Int) < 7 := by decide
  have hinit : RaceInv db (decrementRows db row.id 7) row.id 7
      { row with stock_quantity := 3 }
      (.InsufficientStockError "Insufficient stock. Available: 3, Requested: 7")
      (System.init db [(row.id, 7), (row.id, 7)]) :=
    ⟨.start, .start, rfl, Or.inl ⟨Or.inl rfl, Or.inl rfl, rfl, rfl⟩⟩
  have hstepAll := raceInv_step db (decrementRows db row.id 7) row.id 7 row
    { row with stock_quantity := 3 }
    (.InsufficientStockError "Insufficient stock. Available: 3, Requested: 7")
    hpos h0 hge rfl h1 hlt herr
  have hinv := raceInv_run db (decrementRows db row.id 7) row.id 7 row
    { row with stock_quantity := 3 }
    (.InsufficientStockError "Insufficient stock. Available: 3, Requested: 7")
    hpos h0 hge rfl h1 hlt herr schedule _ hinit
  refine ⟨fun hdone => ?_, ?_, ?_⟩
  · have h := raceInv_allDone _ _ _ _ _ _ _ hinv hdone
    rw [h.1]
    exact ⟨h.2, hf1⟩
  · have hrem : ((System.init db [(row.id, 7), (row.id, 7)]).run schedule).remaining ≤ 12 := by
      have hle : ∀ (sch : List Nat) (s : System),
          RaceInv db (decrementRows db row.id 7) row.id 7 { row with stock_quantity := 3 }
            (.InsufficientStockError "Insufficient stock. Available: 3, Requested: 7") s →
          (s.run sch).remaining ≤ s.remaining := by
        intro sch
        induction sch with
        | nil => intro s _; exact le_refl _
        | cons i sch ih =>
          intro s hs
          simp only [System.run]
          cases hstep : s.step i with
          | none => exact ih s hs
          | some s' =>
            have hst := hstepAll s s' i hs hstep
            exact le_trans (ih s' hst.1) (le_of_lt hst.2)
      exact hle schedule _ hinit
    obtain ⟨rest, hlen, hrest⟩ := raceInv_complete db (decrementRows db row.id 7) row.id 7 row
      { row with stock_quantity := 3 }
      (.InsufficientStockError "Insufficient stock. Available: 3, Requested: 7")
      hpos h0 hge rfl h1 hlt herr 12 _ hrem hinv
    exact ⟨rest, hlen, by rw [System.run_append]; exact hrest⟩
  · rcases raceInv_db _ _ _ _ _ _ _ hinv with h | h
    · exact ⟨row, by rw [h]; exact hf0, Or.inl hstock⟩
    · exact ⟨_, by rw [h]; exact hf1, Or.inr rfl⟩

theorem concurrent_decreaseStock_witness :
    (((System.init crateDb [(7, 7), (7, 7)]).run [0, 1, 1, 0, 1, 0, 0, 1, 0, 1, 1, 0, 0, 1]).allDone
        = true →
      (((System.init crateDb [(7, 7), (7, 7)]).run
            [0, 1, 1, 0, 1, 0, 0, 1, 0, 1, 1, 0, 0, 1]).results =
          [some (.ok (some { crate with stock_quantity := 3 })),
           some (.error (.InsufficientStockError
             "Insufficient stock. Available: 3, Requested: 7"))] ∨
        ((System.init crateDb [(7, 7), (7, 7)]).run
            [0, 1, 1, 0, 1, 0, 0, 1, 0, 1, 1, 0, 0, 1]).results =
          [some (.error (.InsufficientStockError
             "Insufficient stock. Available: 3, Requested: 7")),
           some (.ok (some { crate with stock_quantity := 3 }))]) ∧
      Product.findById ((System.init crateDb [(7, 7), (7, 7)]).run
          [0, 1, 1, 0, 1, 0, 0, 1, 0, 1, 1, 0, 0, 1]).db 7 =
        some { crate with stock_quantity := 3 }) ∧
    ((System.init crateDb [(7, 7), (7, 7)]).run [0, 1, 1, 0, 1, 0, 0, 1, 0, 1, 1, 0, 0, 1]).allDone
      = true :=
  ⟨(concurrent_decreaseStock crateDb crate (by simp [Db.PrimaryKey, crateDb, widget, crate])
      (by simp [crateDb]) rfl [0, 1, 1, 0, 1, 0, 0, 1, 0, 1, 1, 0, 0, 1]).1, by decide⟩

/-! ## Creation, listing, update -/

/-- C6: `Product.create`, with `stock_quantity` and `low_stock_threshold`
defaulting to 0 and 10, throws exactly when one of the two is negative, with
a "cannot be negative" message and without touching the table; otherwise it
appends exactly one row, keeps the others, and returns that row: its id is
the one assigned by the store and its four other fields are the inputs, so
its `stock_quantity` is not negative. -/
theorem create_spec (db : Db) (name description : String)
    (stock_quantity low_stock_threshold : Option Int) :
    ((∃ e, (Product.create db name description stock_quantity low_stock_threshold).2 = .error e)
      ↔ (stock_quantity.getD 0 < 0 ∨ low_stock_threshold.getD 10 < 0)) ∧
    (stock_quantity.getD 0 < 0 →
      Product.create db name description stock_quantity low_stock_threshold =
        (db, .error (.Error "Initial stock quantity cannot be negative"))) ∧
    (¬ stock_quantity.getD 0 < 0 → low_stock_threshold.getD 10 < 0 →
      Product.create db name description stock_quantity low_stock_threshold =
        (db, .error (.Error "Low stock threshold cannot be negative"))) ∧
    (¬ (stock_quantity.getD 0 < 0 ∨ low_stock_threshold.getD 10 < 0) →
      ∃ p : Product,
        (Product.create db name description stock_quantity low_stock_threshold).2 = .ok p ∧
        (Product.create db name description stock_quantity low_stock_threshold).1.rows
          = db.rows ++ [p] ∧
        p.id = db.autoIncrement ∧ p.name = name ∧ p.description = description ∧
        p.stock_quantity = stock_quantity.getD 0 ∧
        p.low_stock_threshold = low_stock_threshold.getD 10 ∧
        0 ≤ p.stock_quantity) := by
  by_cases h1 : stock_quantity.getD 0 < 0
  · have herr : Product.create db name description stock_quantity low_stock_threshold =
        (db, .error (.Error "Initial stock quantity cannot be negative")) := by
      simp only [Product.create, h1, if_true]
    rw [herr]
    exact ⟨⟨fun _ => Or.inl h1, fun _ => ⟨_, rfl⟩⟩, fun _ => rfl, fun h => absurd h1 h,
      fun h => absurd (Or.inl h1) h⟩
  · by_cases h2 : low_stock_threshold.getD 10 < 0
    · have herr : Product.create db name description stock_quantity low_stock_threshold =
          (db, .error (.Error "Low stock threshold cannot be negative")) := by
        simp only [Product.create, h1, h2, if_true, if_false]
      rw [herr]
      exact ⟨⟨fun _ => Or.inr h2, fun _ => ⟨_, rfl⟩⟩, fun h => absurd h h1, fun _ _ => rfl,
        fun h => absurd (Or.inr h2) h⟩
    · have hok : Product.create db name description stock_quantity low_stock_threshold =
          ((db.execInsert name description (stock_quantity.getD 0)
              (low_stock_threshold.getD 10)).1,
           .ok { id := db.autoIncrement, name := name, description := description,
                 stock_quantity := stock_quantity.getD 0,
                 low_stock_threshold := low_stock_threshold.getD 10 }) := by
        simp only [Product.create, Db.execInsert, h1, h2, if_false]
      rw [hok]
      refine ⟨⟨fun ⟨e, he⟩ => (by cases he), fun h => ?_⟩, fun h => absurd h h1,
        fun _ h => absurd h h2,
        fun _ => ⟨_, rfl, rfl, rfl, rfl, rfl, rfl, rfl, not_lt.1 h1⟩⟩
      rcases h with h | h
      · exact absurd h h1
      · exact absurd h h2

theorem create_spec_witness :
    ∃ p : Product,
      (Product.create widgetDb "Gadget" "" none none).2 = .ok p ∧
      (Product.create widgetDb "Gadget" "" none none).1.rows = widgetDb.rows ++ [p] ∧
      p.id = widgetDb.autoIncrement ∧ p.name = "Gadget" ∧ p.description = "" ∧
      p.stock_quantity = (none : Option Int).getD 0 ∧
      p.low_stock_threshold = (none : Option Int).getD 10 ∧
      0 ≤ p.stock_quantity :=
  (create_spec widgetDb "Gadget" "" none none).2.2.2 (by decide)

/-- C7: `getLowStockProducts` returns a rearrangement of the rows of the table
with `stock_quantity < low_stock_threshold`, each with the multiplicity it has
in the table and no other row, and the returned sequence is in ascending
order of `stock_quantity`. -/
theorem getLowStockProducts_spec (db : Db) :
    (Product.getLowStockProducts db).Perm
      (db.rows.filter (fun r => decide (r.stock_quantity < r.low_stock_threshold))) ∧
    (∀ p, p ∈ Product.getLowStockProducts db ↔
      p ∈ db.rows ∧ p.stock_quantity < p.low_stock_threshold) ∧
    (Product.getLowStockProducts db).Pairwise
      (fun a b => a.stock_quantity ≤ b.stock_quantity) := by
  refine ⟨List.perm_insertionSort _ _, fun p => mem_getLowStockProducts, ?_⟩
  haveI : IsTotal Product (fun a b => a.stock_quantity ≤ b.stock_quantity) :=
    ⟨fun a b => le_total a.stock_quantity b.stock_quantity⟩
  haveI : IsTrans Product (fun a b => a.stock_quantity ≤ b.stock_quantity) :=
    ⟨fun _ _ _ hab hbc => le_trans hab hbc⟩
  exact List.sorted_insertionSort _ _

/-- C8: on a table with its primary key, `Product.update` of a product that is
present, with a name and/or a description supplied, returns the product that
`findById` then reads: the supplied fields have the new values, the omitted
field, `stock_quantity`, `low_stock_threshold` and `id` are those of the row
before, and every row with another id is unchanged. -/
theorem update_frame (db : Db) (row : Product) (id : Int) (name description : Option String)
    (hpk : db.PrimaryKey) (hrow : row ∈ db.rows) (hid : row.id = id)
    (hsup : name ≠ none ∨ description ≠ none) :
    ∃ p : Product,
      (Product.update db id name description).2 = .ok (some p) ∧
      Product.findById (Product.update db id name description).1 id = some p ∧
      p.name = name.getD row.name ∧ p.description = description.getD row.description ∧
      p.stock_quantity = row.stock_quantity ∧
      p.low_stock_threshold = row.low_stock_threshold ∧ p.id = row.id ∧
      (Product.update db id name description).1.rows =
        db.rows.map (fun r => if r.id = id then p else r) ∧
      (Product.update db id name description).1.autoIncrement = db.autoIncrement := by
  subst hid
  have hlen : (setClause name description).length ≠ 0 := by
    cases name <;> cases description <;> simp [setClause] at hsup ⊢
  have hsel : (db.selectById row.id).length ≠ 0 := by
    rw [Db.selectById_of_mem hpk hrow]
    exact Nat.succ_ne_zero 0
  have hfind := findById_execUpdate db (fun r => r.id == row.id)
    (fun r => (setClause name description).foldl Assignment.apply r)
    (fun r => foldl_apply_id _ r) hpk hrow
  simp only [beq_self_eq_true, if_true] at hfind
  rw [update_eq, if_neg hlen, if_neg hsel]
  refine ⟨(setClause name description).foldl Assignment.apply row, congrArg _ hfind, hfind,
    ?_, ?_, foldl_apply_stock _ _, foldl_apply_threshold _ _, foldl_apply_id _ _, ?_, rfl⟩
  · cases name <;> cases description <;> rfl
  · cases name <;> cases description <;> rfl
  · simp only [Db.execUpdate]
    refine List.map_congr_left (fun r hr => ?_)
    by_cases h : r.id = row.id
    · have hrr : r = row := List.inj_on_of_nodup_map hpk.1 hr hrow h
      simp [hrr]
    · simp [h]

theorem update_frame_witness :
    ∃ p : Product,
      (Product.update widgetDb 1 (some "X") none).2 = .ok (some p) ∧
      Product.findById (Product.update widgetDb 1 (some "X") none).1 1 = some p ∧
      p.name = (some "X").getD widget.name ∧
      p.description = (none : Option String).getD widget.description ∧
      p.stock_quantity = widget.stock_quantity ∧
      p.low_stock_threshold = widget.low_stock_threshold ∧ p.id = widget.id ∧
      (Product.update widgetDb 1 (some "X") none).1.rows =
        widgetDb.rows.map (fun r => if r.id = 1 then p else r) ∧
      (Product.update widgetDb 1 (some "X") none).1.autoIncrement = widgetDb.autoIncrement :=
  update_frame widgetDb widget 1 (some "X") none widgetDb_primaryKey
    (by simp [widgetDb]) rfl (Or.inl (by simp))

/-! ## Deletion -/

/-- C10: after a `Product.delete(id)` that reports a removal, `findById(id)`
returns `null`, a second `Product.delete(id)` returns `false` and changes
nothing, and the delete route answers that second request with 404
"Product not found"; a delete on an id that no row has returns `false` and
leaves the table as it was. -/
theorem delete_spec (db : Db) (id : Int) :
    ((Product.delete db id).2 = true →
      Product.findById (Product.delete db id).1 id = none ∧
      Product.delete (Product.delete db id).1 id = ((Product.delete db id).1, false) ∧
      (0 < id → routeDelete (Product.delete db id).1 (.int id) =
        ((Product.delete db id).1,
         { status := 404, body := .error "Product not found" }))) ∧
    ((∀ r ∈ db.rows, r.id ≠ id) → Product.delete db id = (db, false)) := by
  have habs := delete_rows_absent db id
  have hsecond := delete_of_absent (Product.delete db id).1 id habs
  refine ⟨fun _ => ⟨findById_of_absent _ id habs, hsecond, fun hpos => ?_⟩,
    delete_of_absent db id⟩
  simp [routeDelete, validateProductId, JsNumber.isNaN, JsNumber.leZero, JsNumber.isInteger,
    deleteProduct, not_le.2 hpos, hsecond]

theorem delete_spec_witness :
    Product.findById (Product.delete widgetDb 1).1 1 = none ∧
      Product.delete (Product.delete widgetDb 1).1 1 = ((Product.delete widgetDb 1).1, false) ∧
      (0 < (1 : Int) → routeDelete (Product.delete widgetDb 1).1 (.int 1) =
        ((Product.delete widgetDb 1).1,
         { status := 404, body := .error "Product not found" })) :=
  (delete_spec widgetDb 1).1 (by decide)

/-! ## Names -/

/-- C9, the update route at `PUT /api/products/1`: on the table holding only
`widget`, whose name is non-empty and trimmed, the bodies `{"name": ""}`,
`{"name": "  "}` and `{"name": " X "}` are each answered with 200 and the
name is stored as sent, so the table no longer has non-empty, trimmed
names. -/
theorem routePut_stores_name_as_sent :
    widgetDb.NamesTrimmed ∧
    routePut widgetDb (.int 1) (some "") none =
      ({ rows := [{ widget with name := "" }], autoIncrement := 2 },
       { status := 200, body := .product { widget with name := "" } }) ∧
    routePut widgetDb (.int 1) (some "  ") none =
      ({ rows := [{ widget with name := "  " }], autoIncrement := 2 },
       { status := 200, body := .product { widget with name := "  " } }) ∧
    routePut widgetDb (.int 1) (some " X ") none =
      ({ rows := [{ widget with name := " X " }], autoIncrement := 2 },
       { status := 200, body := .product { widget with name := " X " } }) ∧
    ¬ (routePut widgetDb (.int 1) (some "") none).1.NamesTrimmed ∧
    ¬ (routePut widgetDb (.int 1) (some "  ") none).1.NamesTrimmed ∧
    ¬ (routePut widgetDb (.int 1) (some " X ") none).1.NamesTrimmed := by
  have h1 : routePut widgetDb (.int 1) (some "") none =
      ({ rows := [{ widget with name := "" }], autoIncrement := 2 },
       { status := 200, body := .product { widget with name := "" } }) := by decide
  have h2 : routePut widgetDb (.int 1) (some "  ") none =
      ({ rows := [{ widget with name := "  " }], autoIncrement := 2 },
       { status := 200, body := .product { widget with name := "  " } }) := by decide
  have h3 : routePut widgetDb (.int 1) (some " X ") none =
      ({ rows := [{ widget with name := " X " }], autoIncrement := 2 },
       { status := 200, body := .product { widget with name := " X " } }) := by decide
  refine ⟨?_, h1, h2, h3, ?_, ?_, ?_⟩
  · intro r hr
    simp only [widgetDb, List.mem_singleton] at hr
    subst hr
    exact ⟨by decide, by decide⟩
  · rw [h1]
    intro h
    exact (h _ (List.mem_singleton.2 rfl)).1 rfl
  · rw [h2]
    intro h
    exact absurd (h _ (List.mem_singleton.2 rfl)).2 (by decide)
  · rw [h3]
    intro h
    exact absurd (h _ (List.mem_singleton.2 rfl)).2 (by decide)

end Inventory
